import Mathlib

/-
Verification development for the terminal core of the Warp_clone repository.

The definitions below are a shallow embedding of the Rust source:
  - src/terminal/history.rs  (HistoryEntry, CommandHistory)
  - src/terminal/block.rs    (Block, BlockType)
  - src/terminal/mod.rs      (TerminalSession, TerminalConfig, TerminalEvent)
  - src/terminal/engine.rs   (TerminalEngine and its operations)
  - src/terminal/pty.rs      (VtePerformer callbacks, VteProcessor)

Modelling conventions:
  - Rust usize/i32/u64 become Nat/Int; the only subtraction sites are guarded
    in the source, and truncated Nat subtraction is noted where it stands in
    for usize arithmetic.
  - Uuid::new_v4() and Utc::now() are environment inputs; fresh identifiers
    are modelled by a counter threaded through the engine state, and
    timestamps are explicit record values supplied by the caller.
  - VecDeque<HistoryEntry> becomes List HistoryEntry with the list head as
    the deque front, so push_back appends and pop_front drops from the head.
  - Filesystem and process side effects (fs::write, Command::spawn) are
    represented as data: the export content string, and explicit effect
    values in the engine model.
-/

/-- Calendar timestamp. The chrono DateTime type is external to the
repository; only its rendering through the format string
"%Y-%m-%d %H:%M:%S" matters to the verified claims, so the six rendered
fields are carried explicitly. -/
structure Timestamp where
  year : Nat
  month : Nat
  day : Nat
  hour : Nat
  minute : Nat
  second : Nat
deriving DecidableEq, Repr

/-- Left-pad the decimal rendering of n with zeros to width w, as the chrono
format specifiers %Y (width 4) and %m %d %H %M %S (width 2) do. -/
def padZero (w : Nat) (n : Nat) : String :=
  let s := toString n
  String.mk (List.replicate (w - s.length) '0') ++ s

/-- Rendering of a timestamp through "%Y-%m-%d %H:%M:%S", used by
HistoryEntry::formatted_timestamp (history.rs lines 35-37). -/
def Timestamp.format (t : Timestamp) : String :=
  padZero 4 t.year ++ "-" ++ padZero 2 t.month ++ "-" ++ padZero 2 t.day ++ " " ++
  padZero 2 t.hour ++ ":" ++ padZero 2 t.minute ++ ":" ++ padZero 2 t.second

/-- HistoryEntry (history.rs lines 6-13). -/
structure HistoryEntry where
  command : String
  timestamp : Timestamp
  working_directory : String
  exit_code : Option Int
  execution_time : Option Nat
deriving DecidableEq, Repr

/-- HistoryEntry::new (history.rs lines 16-24); the Utc::now() timestamp is an
explicit argument. -/
def HistoryEntry.new (command : String) (working_directory : String)
    (now : Timestamp) : HistoryEntry :=
  { command := command, timestamp := now, working_directory := working_directory,
    exit_code := none, execution_time := none }

/-- HistoryEntry::is_success (history.rs lines 31-33):
matches!(self.exit_code, Some(0)). -/
def HistoryEntry.is_success (e : HistoryEntry) : Bool :=
  match e.exit_code with
  | some 0 => true
  | _ => false

/-- CommandHistory (history.rs lines 40-44). The VecDeque front is the list
head. -/
structure CommandHistory where
  entries : List HistoryEntry
  max_entries : Nat
  current_index : Option Nat
deriving DecidableEq, Repr

/-- CommandHistory::new (history.rs lines 47-53). -/
def CommandHistory.new (max_entries : Nat) : CommandHistory :=
  { entries := [], max_entries := max_entries, current_index := none }

/-- CommandHistory::add_entry (history.rs lines 55-72): reject an entry whose
command equals the back entry command; otherwise push_back, pop_front while
the length exceeds max_entries (the while loop drops exactly
length - max_entries elements), and reset the recall cursor. -/
def CommandHistory.add_entry (h : CommandHistory) (entry : HistoryEntry) :
    CommandHistory :=
  if h.entries.getLast?.map HistoryEntry.command = some entry.command then h
  else
    let es := h.entries ++ [entry]
    { entries := es.drop (es.length - h.max_entries),
      max_entries := h.max_entries,
      current_index := none }

/-- CommandHistory::get_previous (history.rs lines 74-93). Returns the yielded
entry together with the updated history. With the cursor at 0 the source
returns entry 0 and leaves the cursor at 0. -/
def CommandHistory.get_previous (h : CommandHistory) :
    Option HistoryEntry × CommandHistory :=
  if h.entries = [] then (none, h)
  else
    match h.current_index with
    | none =>
        (h.entries[h.entries.length - 1]?,
         { h with current_index := some (h.entries.length - 1) })
    | some index =>
        if index > 0 then
          (h.entries[index - 1]?, { h with current_index := some (index - 1) })
        else
          (h.entries[index]?, h)

/-- CommandHistory::get_next (history.rs lines 95-108). The source computes
self.entries.len() - 1 on usize; the cursor is only ever set while the entry
list is non-empty, and every theorem below that touches this branch carries
that hypothesis, so truncated Nat subtraction is a faithful stand-in. -/
def CommandHistory.get_next (h : CommandHistory) :
    Option HistoryEntry × CommandHistory :=
  match h.current_index with
  | none => (none, h)
  | some index =>
      if index < h.entries.length - 1 then
        (h.entries[index + 1]?, { h with current_index := some (index + 1) })
      else
        (none, { h with current_index := none })

/-- Iterated get_previous: the list of the K successive results, threading the
updated history through (models pressing the recall key K times). -/
def prevCalls : CommandHistory → Nat → List (Option HistoryEntry)
  | _, 0 => []
  | h, k + 1 =>
      let r := h.get_previous
      r.1 :: prevCalls r.2 k

/-- CommandHistory::get_failed_commands (history.rs lines 153-158). -/
def CommandHistory.get_failed_commands (h : CommandHistory) : List HistoryEntry :=
  h.entries.filter (fun entry => ! entry.is_success)

/-- Stable insertion of a scored entry into a list sorted by descending score:
walk past strictly greater scores, so an inserted element lands before every
element of equal score already present. -/
def insertDesc (x : HistoryEntry × Int) :
    List (HistoryEntry × Int) → List (HistoryEntry × Int)
  | [] => [x]
  | y :: ys => if y.2 > x.2 then y :: insertDesc x ys else x :: y :: ys

/-- Stable sort by descending score. This stands in for the Rust call
matches.sort_by(|a, b| b.1.partial_cmp(&a.1) ...) at history.rs line 130:
slice::sort_by is documented stable, the comparator orders by descending
score, and a stable sort for a total preorder is unique, so any stable
descending sort has the same output; insertion from the right inserting
before equal scores is such a sort. -/
def sortDesc : List (HistoryEntry × Int) → List (HistoryEntry × Int)
  | [] => []
  | x :: xs => insertDesc x (sortDesc xs)

/-- CommandHistory::search_fuzzy (history.rs lines 117-132). The skim matcher
from the external fuzzy_matcher crate is abstracted as a pure function
matcher : haystack → query → Option score; the source filter_maps it over the
entries (front, i.e. oldest, first) and then sorts stably by descending
score. -/
def CommandHistory.search_fuzzy (matcher : String → String → Option Int)
    (h : CommandHistory) (query : String) : List (HistoryEntry × Int) :=
  sortDesc (h.entries.filterMap
    (fun entry => (matcher entry.command query).map (fun score => (entry, score))))

/-- Modelled from the spec: the external fuzzy matcher
(fuzzy_matcher::skim::SkimMatcherV2) is not part of the repository; the spec
describes it as "a standard subsequence-with-gap-penalty fuzzy match". This
model scores +2 per matched character and -1 per skipped character, and
yields none when the query is not a subsequence of the text. Only its two
generic properties matter below: it is a pure function of (text, query), and
it matches a text equal to the query. -/
def subseqScore : List Char → List Char → Option Int
  | _, [] => some 0
  | [], _ :: _ => none
  | c :: cs, p :: ps =>
      if c = p then (subseqScore cs ps).map (fun s => s + 2)
      else (subseqScore cs (p :: ps)).map (fun s => s - 1)

/-- Modelled from the spec: string-level wrapper of subseqScore. -/
def specMatcher (text query : String) : Option Int :=
  subseqScore text.toList query.toList

/-- The completion mark of one export record (history.rs lines 182-186). -/
def exportMark (exit_code : Option Int) : String :=
  match exit_code with
  | some 0 => " ✓"
  | some code => " ✗(" ++ toString code ++ ")"
  | none => ""

/-- The string CommandHistory::export_to_file (history.rs lines 173-193)
writes to the file: the concatenation, in entry order, of
"{timestamp} {command} ({cwd}){mark}\n". The fs::write call is abstracted;
this is the full file content. -/
def CommandHistory.export_content (h : CommandHistory) : String :=
  String.join (h.entries.map (fun entry =>
    entry.timestamp.format ++ " " ++ entry.command ++ " (" ++
    entry.working_directory ++ ")" ++ exportMark entry.exit_code ++ "\n"))

/-- Written from the words of the spec for the refinement claim C9: one
record of the exact form "YYYY-MM-DD HH:MM:SS <command> (<cwd>)[ mark]",
where mark is " ✓" when the exit code is 0, " ✗(code)" when it is non-zero,
and empty when the entry never received an exit code. -/
def specExportLine (e : HistoryEntry) : String :=
  e.timestamp.format ++ " " ++ e.command ++ " (" ++ e.working_directory ++ ")" ++
  (match e.exit_code with
   | none => ""
   | some c => if c = 0 then " ✓" else " ✗(" ++ toString c ++ ")") ++ "\n"

/-- BlockType (block.rs lines 6-13). -/
inductive BlockType
  | Command
  | Output
  | Error
  | System
  | AiResponse
deriving DecidableEq, Repr

/-- Block (block.rs lines 15-26). The creation timestamp (Utc::now()) is
elided: it is an environment input unused by every claim below. Uuid values
are modelled as Nat. -/
structure Block where
  id : Nat
  block_type : BlockType
  content : String
  metadata : List (String × String)
  is_collapsible : Bool
  is_collapsed : Bool
  exit_code : Option Int
  execution_time : Option Nat
deriving DecidableEq, Repr

/-- Block::new (block.rs lines 29-41); the fresh Uuid is an explicit
argument. -/
def Block.new (id : Nat) (block_type : BlockType) (content : String) : Block :=
  { id := id, block_type := block_type, content := content, metadata := [],
    is_collapsible := false, is_collapsed := false,
    exit_code := none, execution_time := none }

/-- Block::command (block.rs lines 43-47). -/
def Block.command (id : Nat) (content : String) : Block :=
  { Block.new id BlockType.Command content with is_collapsible := true }

/-- Block::output (block.rs lines 49-51). -/
def Block.output (id : Nat) (content : String) : Block :=
  Block.new id BlockType.Output content

/-- Block::system (block.rs lines 57-59). -/
def Block.system (id : Nat) (content : String) : Block :=
  Block.new id BlockType.System content

/-- Block::is_success (block.rs lines 89-95): no exit code counts as
success there, with the source comment "No exit code means it is not a
command that failed". -/
def Block.is_success (b : Block) : Bool :=
  match b.exit_code with
  | some 0 => true
  | some _ => false
  | none => true

/-- TerminalSession (mod.rs lines 67-74). The environment snapshot
(std::env::vars) is elided: an environment input unused by every claim
below. -/
structure TerminalSession where
  id : Nat
  blocks : List Block
  current_directory : String
  is_active : Bool
deriving DecidableEq, Repr

/-- TerminalSession::new (mod.rs lines 77-88); the fresh Uuid and the
process current directory are explicit arguments. -/
def TerminalSession.new (id : Nat) (cwd : String) : TerminalSession :=
  { id := id, blocks := [], current_directory := cwd, is_active := true }

/-- TerminalConfig (mod.rs lines 16-23); font_size (an f32 opaque to the
core) is elided. -/
structure TerminalConfig where
  shell : String
  theme : String
  max_history : Nat
  enable_vi_mode : Bool
deriving DecidableEq, Repr

/-- TerminalEvent (mod.rs lines 41-62). -/
inductive TerminalEvent
  | CommandStarted (id : Nat) (command : String)
  | CommandOutput (id : Nat) (output : String) (is_stderr : Bool)
  | CommandFinished (id : Nat) (exit_code : Int)
  | NewBlock (block : Block)
  | Error (message : String)
deriving DecidableEq, Repr

/-- Observable effect of an engine operation: an event published on the bus,
or the spawning of a child process (tokio Command::new(shell).args([flag,
cmd]).current_dir(cwd).spawn() at engine.rs lines 152-166). -/
inductive EngineEffect
  | event (e : TerminalEvent)
  | spawnChild (shell : String) (flag : String) (command : String) (cwd : String)
deriving DecidableEq, Repr

/-- TerminalEngine state (engine.rs lines 16-23). The HashMap of sessions is
an association list keyed by session id; next_id models the Uuid::new_v4
generator; the event sender and pty manager carry no state relevant here. -/
structure TerminalEngine where
  config : TerminalConfig
  sessions : List (Nat × TerminalSession)
  active_session_id : Option Nat
  is_running : Bool
  next_id : Nat
deriving DecidableEq, Repr

/-- HashMap::get on the session map. -/
def findSession (sessions : List (Nat × TerminalSession)) (id : Nat) :
    Option TerminalSession :=
  (sessions.find? (fun p => p.1 == id)).map Prod.snd

/-- HashMap::get_mut followed by a mutation of the found session. -/
def updateSession (sessions : List (Nat × TerminalSession)) (id : Nat)
    (f : TerminalSession → TerminalSession) : List (Nat × TerminalSession) :=
  sessions.map (fun p => if p.1 == id then (p.1, f p.2) else p)

/-- TerminalEngine::create_session (engine.rs lines 39-57): insert a fresh
session; make it active only when no session is active yet. The process
current directory (used by TerminalSession::new) is an explicit argument. -/
def TerminalEngine.create_session (eng : TerminalEngine) (process_cwd : String) :
    Nat × TerminalEngine :=
  let session_id := eng.next_id
  let session := TerminalSession.new session_id process_cwd
  let active :=
    match eng.active_session_id with
    | none => some session_id
    | some a => some a
  (session_id,
   { eng with sessions := eng.sessions ++ [(session_id, session)],
              active_session_id := active,
              next_id := session_id + 1 })

/-- TerminalEngine::switch_session (engine.rs lines 69-79): succeed and set
the active id when the session exists, otherwise return the error and leave
the state untouched. -/
def TerminalEngine.switch_session (eng : TerminalEngine) (session_id : Nat) :
    Except String Unit × TerminalEngine :=
  if (eng.sessions.find? (fun p => p.1 == session_id)).isSome then
    (Except.ok (), { eng with active_session_id := some session_id })
  else
    (Except.error ("Session not found: " ++ toString session_id), eng)

/-- TerminalEngine::clear_session (engine.rs lines 258-269): empty the block
list of the named session, or return the error and leave the state
untouched. -/
def TerminalEngine.clear_session (eng : TerminalEngine) (session_id : Nat) :
    Except String Unit × TerminalEngine :=
  if (eng.sessions.find? (fun p => p.1 == session_id)).isSome then
    (Except.ok (),
     { eng with sessions :=
        updateSession eng.sessions session_id (fun s => { s with blocks := [] }) })
  else
    (Except.error ("Session not found: " ++ toString session_id), eng)

/-- TerminalEngine::get_session_blocks (engine.rs lines 250-256): read-only
(it takes only a read lock and clones the block list). -/
def TerminalEngine.get_session_blocks (eng : TerminalEngine) (session_id : Nat) :
    Except String (List Block) :=
  match findSession eng.sessions session_id with
  | some session => Except.ok session.blocks
  | none => Except.error ("Session not found: " ++ toString session_id)

/-- TerminalEngine::execute_command (engine.rs lines 81-139) together with
the unconditional child spawn its spawned task performs (run_command_async,
engine.rs lines 152-166, POSIX branch: shell -c command). Returns the new
command id, the updated engine state, and the effects: the source never
consults handle_builtin_command, so for every command string it appends a
Command block to the active session, publishes CommandStarted, and schedules
a child spawn. Reader and wait effects of the spawned task depend on the
child and are modelled separately by the RunState machine below. -/
def TerminalEngine.execute_command (eng : TerminalEngine) (command : String)
    (process_cwd : String) : Nat × TerminalEngine × List EngineEffect :=
  let sid_eng :=
    match eng.active_session_id with
    | some id => (id, eng)
    | none => eng.create_session process_cwd
  let session_id := sid_eng.1
  let eng1 := sid_eng.2
  let working_directory :=
    match findSession eng1.sessions session_id with
    | some s => s.current_directory
    | none => process_cwd
  let command_id := eng1.next_id
  let command_block := Block.command command_id command
  let eng2 :=
    { eng1 with
        next_id := command_id + 1,
        sessions := updateSession eng1.sessions session_id
          (fun s => { s with blocks := s.blocks ++ [command_block] }) }
  (command_id, eng2,
   [EngineEffect.event (TerminalEvent.CommandStarted command_id command),
    EngineEffect.spawnChild eng2.config.shell "-c" command working_directory])

/-- TerminalAction (pty.rs lines 151-167). The u8 colour components are
Nat values below 256. -/
inductive TerminalAction
  | Print (c : Char)
  | LineFeed
  | CarriageReturn
  | Backspace
  | Tab
  | ClearScreen
  | ClearLine
  | SetCursorPosition (row : Nat) (col : Nat)
  | SetForegroundColor (r : Nat) (g : Nat) (b : Nat)
  | SetBackgroundColor (r : Nat) (g : Nat) (b : Nat)
  | SetBold (b : Bool)
  | SetItalic (b : Bool)
  | SetUnderline (b : Bool)
  | Reset
deriving DecidableEq, Repr

/-- The fixed 8-colour palette, the colors array duplicated at pty.rs lines
235-244 and 251-260. -/
def basicColors : List (Nat × Nat × Nat) :=
  [(0, 0, 0), (128, 0, 0), (0, 128, 0), (128, 128, 0),
   (0, 0, 128), (128, 0, 128), (0, 128, 128), (192, 192, 192)]

/-- The actions VtePerformer::execute pushes for one C0 control byte
(pty.rs lines 174-181): LF, CR, BS, TAB; every other control byte is
ignored. -/
def vteExecute (byte : Nat) : List TerminalAction :=
  if byte = 10 then [TerminalAction.LineFeed]
  else if byte = 13 then [TerminalAction.CarriageReturn]
  else if byte = 8 then [TerminalAction.Backspace]
  else if byte = 9 then [TerminalAction.Tab]
  else []

/-- The actions one SGR parameter contributes inside the for loop of the
CSI m arm (pty.rs lines 224-267). -/
def sgrAction (p : Nat) : List TerminalAction :=
  if p = 0 then [TerminalAction.Reset]
  else if p = 1 then [TerminalAction.SetBold true]
  else if p = 3 then [TerminalAction.SetItalic true]
  else if p = 4 then [TerminalAction.SetUnderline true]
  else if p = 22 then [TerminalAction.SetBold false]
  else if p = 23 then [TerminalAction.SetItalic false]
  else if p = 24 then [TerminalAction.SetUnderline false]
  else if 30 ≤ p ∧ p ≤ 37 then
    match basicColors[p - 30]? with
    | some c => [TerminalAction.SetForegroundColor c.1 c.2.1 c.2.2]
    | none => []
  else if 40 ≤ p ∧ p ≤ 47 then
    match basicColors[p - 40]? with
    | some c => [TerminalAction.SetBackgroundColor c.1 c.2.1 c.2.2]
    | none => []
  else []

/-- VtePerformer::csi_dispatch (pty.rs lines 200-271): H/f cursor position
(missing parameters default to 1, then saturating_sub 1), J erase display
(only parameter 2 acts), K erase line, m SGR looping over all parameters;
every other final byte is ignored. -/
def csi_dispatch (params : List Nat) (c : Char) : List TerminalAction :=
  if c = 'H' ∨ c = 'f' then
    let row := (params[0]?).getD 1
    let col := (params[1]?).getD 1
    [TerminalAction.SetCursorPosition (row - 1) (col - 1)]
  else if c = 'J' then
    if (params[0]?).getD 0 = 2 then [TerminalAction.ClearScreen] else []
  else if c = 'K' then [TerminalAction.ClearLine]
  else if c = 'm' then
    (params.map sgrAction).flatten
  else []

/-- Modelled from the spec: the escape-sequence parser is the external vte
crate, which the spec (section 4.2) calls "a standard escape-sequence state
machine" whose unrecognised CSI/OSC/DCS/ESC sequences "are silently consumed
(do not raise actions)"; only the performer callbacks above are repository
code. The states are those of the standard DEC-compatible machine restricted
to ASCII input: ground; escape after ESC; escape-intermediate after an ESC
intermediate byte (0x20-0x2f); CSI parameter collection (entry immediately
after the bracket, param with the groups completed so far and the value in
progress, intermediate after a CSI intermediate byte, and ignore for
malformed sequences, which still swallow bytes up to the final byte without
dispatching); the OSC string, terminated by BEL or by ST via ESC; and one
collapsed string-consuming state for DCS, SOS, PM and APC, which raise no
performer action in this program and are left only through the
anywhere transitions (CAN, SUB, ESC). -/
inductive VtState
  | ground
  | escape
  | escapeIntermediate
  | csiEntry
  | csiParam (params : List Nat) (cur : Nat)
  | csiIntermediate (params : List Nat) (cur : Nat)
  | csiIgnore
  | oscString
  | stringConsume
deriving DecidableEq, Repr

/-- Modelled from the spec: one byte of the standard state machine, returning
the successor state and the actions the performer callbacks push for this
byte. The anywhere transitions come first: CAN and SUB abort any sequence
back to ground through the execute callback, ESC (re)starts a sequence. In
ground, printable bytes (0x20-0x7e, the spec words are "printable
characters") are printed and other C0 bytes go to the execute callback; DEL
and bytes at or above 0x80 (the utf8 path of the external crate) are outside
the domain verified below and are consumed without action. Parameter values
accumulate in decimal; a semicolon closes a group; the value in progress
(zero when none was written, as the reference parser pushes it
unconditionally) is appended at the final byte, which dispatches to the
performer. C0 bytes inside escape and CSI states are executed in place;
inside the string states they are swallowed. -/
def vtStep (s : VtState) (b : Nat) : VtState × List TerminalAction :=
  if b = 24 ∨ b = 26 then (VtState.ground, vteExecute b)
  else if b = 27 then (VtState.escape, [])
  else
    match s with
    | VtState.ground =>
        if 32 ≤ b ∧ b ≤ 126 then
          (VtState.ground, [TerminalAction.Print (Char.ofNat b)])
        else if b ≤ 31 then (VtState.ground, vteExecute b)
        else (VtState.ground, [])
    | VtState.escape =>
        if b = 91 then (VtState.csiEntry, [])
        else if b = 93 then (VtState.oscString, [])
        else if b = 80 ∨ b = 88 ∨ b = 94 ∨ b = 95 then
          (VtState.stringConsume, [])
        else if 32 ≤ b ∧ b ≤ 47 then (VtState.escapeIntermediate, [])
        else if 48 ≤ b ∧ b ≤ 126 then (VtState.ground, [])
        else if b ≤ 31 then (VtState.escape, vteExecute b)
        else (VtState.escape, [])
    | VtState.escapeIntermediate =>
        if 32 ≤ b ∧ b ≤ 47 then (VtState.escapeIntermediate, [])
        else if 48 ≤ b ∧ b ≤ 126 then (VtState.ground, [])
        else if b ≤ 31 then (VtState.escapeIntermediate, vteExecute b)
        else (VtState.escapeIntermediate, [])
    | VtState.csiEntry =>
        if 48 ≤ b ∧ b ≤ 57 then (VtState.csiParam [] (b - 48), [])
        else if b = 59 then (VtState.csiParam [0] 0, [])
        else if b = 58 then (VtState.csiIgnore, [])
        else if 60 ≤ b ∧ b ≤ 63 then (VtState.csiParam [] 0, [])
        else if 32 ≤ b ∧ b ≤ 47 then (VtState.csiIntermediate [] 0, [])
        else if 64 ≤ b ∧ b ≤ 126 then
          (VtState.ground, csi_dispatch [0] (Char.ofNat b))
        else if b ≤ 31 then (VtState.csiEntry, vteExecute b)
        else (VtState.csiEntry, [])
    | VtState.csiParam ps cur =>
        if 48 ≤ b ∧ b ≤ 57 then
          (VtState.csiParam ps (cur * 10 + (b - 48)), [])
        else if b = 59 then (VtState.csiParam (ps ++ [cur]) 0, [])
        else if b = 58 ∨ (60 ≤ b ∧ b ≤ 63) then (VtState.csiIgnore, [])
        else if 32 ≤ b ∧ b ≤ 47 then (VtState.csiIntermediate ps cur, [])
        else if 64 ≤ b ∧ b ≤ 126 then
          (VtState.ground, csi_dispatch (ps ++ [cur]) (Char.ofNat b))
        else if b ≤ 31 then (VtState.csiParam ps cur, vteExecute b)
        else (VtState.csiParam ps cur, [])
    | VtState.csiIntermediate ps cur =>
        if 32 ≤ b ∧ b ≤ 47 then (VtState.csiIntermediate ps cur, [])
        else if 48 ≤ b ∧ b ≤ 63 then (VtState.csiIgnore, [])
        else if 64 ≤ b ∧ b ≤ 126 then
          (VtState.ground, csi_dispatch (ps ++ [cur]) (Char.ofNat b))
        else if b ≤ 31 then (VtState.csiIntermediate ps cur, vteExecute b)
        else (VtState.csiIntermediate ps cur, [])
    | VtState.csiIgnore =>
        if 64 ≤ b ∧ b ≤ 126 then (VtState.ground, [])
        else if b ≤ 31 then (VtState.csiIgnore, vteExecute b)
        else (VtState.csiIgnore, [])
    | VtState.oscString =>
        if b = 7 then (VtState.ground, [])
        else (VtState.oscString, [])
    | VtState.stringConsume => (VtState.stringConsume, [])

/-- Run the parser over a byte list, collecting actions in emission order. -/
def vtRun : VtState → List Nat → VtState × List TerminalAction
  | s, [] => (s, [])
  | s, b :: bs =>
      let step := vtStep s b
      let rest := vtRun step.1 bs
      (rest.1, step.2 ++ rest.2)

/-- VteProcessor (pty.rs lines 107-110): the parser state persists across
process_bytes calls; the action buffer does not. -/
structure VteProcessor where
  state : VtState
deriving DecidableEq, Repr

/-- VteProcessor::new (pty.rs lines 112-118). -/
def VteProcessor.new : VteProcessor :=
  { state := VtState.ground }

/-- VteProcessor::process_bytes (pty.rs lines 120-128): clear the action
buffer, advance the parser over every byte, hand back the collected actions
together with the retained parser state. A total function: it returns an
action list for every input byte sequence, with no exception and no
input/output. -/
def VteProcessor.process_bytes (p : VteProcessor) (bytes : List Nat) :
    List TerminalAction × VteProcessor :=
  let r := vtRun p.state bytes
  (r.2, { state := r.1 })

/-- Byte in the ASCII printable range 0x20-0x7e. -/
def isPrintableByte (b : Nat) : Bool :=
  decide (32 ≤ b) && decide (b ≤ 126)

/-- Test for a Print action. -/
def TerminalAction.isPrint : TerminalAction → Bool
  | TerminalAction.Print _ => true
  | _ => false

/-- The input bytes that are in the ASCII printable range and are processed
in the ground state, i.e. lie outside any escape sequence, in order. -/
def groundPrintables : VtState → List Nat → List Nat
  | _, [] => []
  | s, b :: bs =>
      (if s = VtState.ground ∧ isPrintableByte b = true then [b] else []) ++
      groundPrintables (vtStep s b).1 bs

/-- The ESC [ n m byte sequence (SGR with the single parameter n). -/
def sgrBytes (n : Nat) : List Nat :=
  [27, 91] ++ (toString n).toList.map Char.toNat ++ [109]

/-- State of one asynchronous command run, entered when execute_command has
already published CommandStarted and returned (engine.rs lines 109-138) and
run_command_async (engine.rs lines 141-212) begins. The child process is
given by its eventual stdout lines, stderr lines and exit code. The two
pipes buffer lines the child has written but a reader task has not yet
consumed. -/
structure RunState where
  stdoutPending : List String
  stderrPending : List String
  stdoutPipe : List String
  stderrPipe : List String
  childExited : Bool
  finishedSent : Bool
  events : List TerminalEvent
deriving DecidableEq, Repr

/-- Scheduler labels: the child writing one stdout or stderr line, the child
exiting, one reader task publishing one line, and the parent task returning
from wait and publishing CommandFinished. -/
inductive RunLabel
  | childOut
  | childErr
  | childExit
  | readOut
  | readErr
  | mainWait
deriving DecidableEq, Repr

/-- Initial run state: CommandStarted is already on the bus (published
synchronously by execute_command before the task is spawned). -/
def RunState.init (cmd_id : Nat) (command : String)
    (outLines errLines : List String) : RunState :=
  { stdoutPending := outLines, stderrPending := errLines,
    stdoutPipe := [], stderrPipe := [],
    childExited := false, finishedSent := false,
    events := [TerminalEvent.CommandStarted cmd_id command] }

/-- One interleaving step of run_command_async; none when the label is not
enabled. Faithful to the source in the one decisive point: mainWait (the
child.wait().await at engine.rs line 201 followed by the CommandFinished
send at lines 205-208) requires only that the child has exited — the reader
task handles are never joined, so lines still buffered in the pipes do not
block it. Each reader (engine.rs lines 169-198) appends a trailing newline
to every published line. -/
def runStep (cmd_id : Nat) (exit_code : Int) (s : RunState) :
    RunLabel → Option RunState
  | RunLabel.childOut =>
      match s.stdoutPending with
      | [] => none
      | line :: rest =>
          some { s with stdoutPending := rest,
                        stdoutPipe := s.stdoutPipe ++ [line] }
  | RunLabel.childErr =>
      match s.stderrPending with
      | [] => none
      | line :: rest =>
          some { s with stderrPending := rest,
                        stderrPipe := s.stderrPipe ++ [line] }
  | RunLabel.childExit =>
      if s.childExited = false ∧ s.stdoutPending = [] ∧ s.stderrPending = [] then
        some { s with childExited := true }
      else none
  | RunLabel.readOut =>
      match s.stdoutPipe with
      | [] => none
      | line :: rest =>
          some { s with stdoutPipe := rest,
                        events := s.events ++
                          [TerminalEvent.CommandOutput cmd_id (line ++ "\n") false] }
  | RunLabel.readErr =>
      match s.stderrPipe with
      | [] => none
      | line :: rest =>
          some { s with stderrPipe := rest,
                        events := s.events ++
                          [TerminalEvent.CommandOutput cmd_id (line ++ "\n") true] }
  | RunLabel.mainWait =>
      if s.childExited = true ∧ s.finishedSent = false then
        some { s with finishedSent := true,
                      events := s.events ++
                        [TerminalEvent.CommandFinished cmd_id exit_code] }
      else none

/-- Run a whole schedule; none as soon as a label is not enabled. -/
def runSchedule (cmd_id : Nat) (exit_code : Int) :
    RunState → List RunLabel → Option RunState
  | s, [] => some s
  | s, l :: ls =>
      match runStep cmd_id exit_code s l with
      | none => none
      | some s1 => runSchedule cmd_id exit_code s1 ls

/-- Test for a CommandFinished event. -/
def isFinishedEvent : TerminalEvent → Bool
  | TerminalEvent.CommandFinished _ _ => true
  | _ => false

/-- A fixed timestamp for concrete instances. -/
def ts0 : Timestamp :=
  { year := 2024, month := 1, day := 2, hour := 3, minute := 4, second := 5 }

/-- Concrete engine for claim C1: one session (id 0, one existing block,
working directory /tmp), active. -/
def engC1 : TerminalEngine :=
  { config := { shell := "bash", theme := "dark", max_history := 1000,
                enable_vi_mode := false },
    sessions := [(0, { id := 0, blocks := [Block.output 1 "old"],
                       current_directory := "/tmp", is_active := true })],
    active_session_id := some 0,
    is_running := true,
    next_id := 2 }

/-- Concrete history for the C3 witness: tail command is ls. -/
def hC3 : CommandHistory :=
  { entries := [HistoryEntry.new "pwd" "/home" ts0, HistoryEntry.new "ls" "/home" ts0],
    max_entries := 1000, current_index := some 1 }

/-- Concrete history for the C4 witness: three entries, cursor unset. -/
def hC4 : CommandHistory :=
  { entries := [HistoryEntry.new "a" "/home" ts0, HistoryEntry.new "b" "/home" ts0,
                HistoryEntry.new "c" "/home" ts0],
    max_entries := 1000, current_index := none }

/-- Concrete engine for the C7 witness: the session map holds only id 0. -/
def engC7 : TerminalEngine :=
  { config := { shell := "bash", theme := "dark", max_history := 1000,
                enable_vi_mode := false },
    sessions := [(0, TerminalSession.new 0 "/home")],
    active_session_id := some 0,
    is_running := true,
    next_id := 1 }

/-- Concrete history for the C8 counterexample: the commands ls, pwd, ls were
added in this order (oldest first), so the two ls entries are distinguished
by their working directories and the /new one is the more recently added. -/
def hC8 : CommandHistory :=
  { entries := [HistoryEntry.new "ls" "/old" ts0, HistoryEntry.new "pwd" "/old" ts0,
                HistoryEntry.new "ls" "/new" ts0],
    max_entries := 1000, current_index := none }

/-- The schedule exhibiting the C2 race: the child writes its line and exits,
the parent task returns from wait and publishes CommandFinished, and only
then does the stdout reader drain the pipe and publish the line. -/
def cexSchedule : List RunLabel :=
  [RunLabel.childOut, RunLabel.childExit, RunLabel.mainWait, RunLabel.readOut]

/-- The state reached by cexSchedule from the concrete initial state. -/
def sC2fin : RunState :=
  { stdoutPending := [], stderrPending := [], stdoutPipe := [], stderrPipe := [],
    childExited := true, finishedSent := true,
    events := [TerminalEvent.CommandStarted 7 "echo hello",
               TerminalEvent.CommandFinished 7 0,
               TerminalEvent.CommandOutput 7 "hello\n" false] }

/-- Invariant of the run machine: CommandStarted heads the event list, and
the number of CommandFinished events equals one exactly when the parent task
has returned from wait and published it. -/
def runInv (cmd_id : Nat) (command : String) (s : RunState) : Prop :=
  s.events.head? = some (TerminalEvent.CommandStarted cmd_id command) ∧
  s.events.countP isFinishedEvent = (if s.finishedSent then 1 else 0)

/-- Concrete never-completed entry for the C10 witness. -/
def entC10 : HistoryEntry := HistoryEntry.new "make" "/home" ts0

/-- Concrete never-completed block for the C10 witness. -/
def blkC10 : Block := Block.command 5 "make"

/-- Claim C10: the two success predicates disagree on the unset case:
HistoryEntry::is_success is false when the exit code is unset, so
get_failed_commands includes every never-completed entry, while
Block::is_success is true when the exit code is unset. -/
theorem C10_success_predicates_disagree :
    (∀ e : HistoryEntry, e.exit_code = none → e.is_success = false) ∧
    (∀ (h : CommandHistory) (e : HistoryEntry),
      e ∈ h.entries → e.exit_code = none → e ∈ h.get_failed_commands) ∧
    (∀ b : Block, b.exit_code = none → b.is_success = true) := by
  refine ⟨?_, ?_, ?_⟩
  · intro e he
    simp [HistoryEntry.is_success, he]
  · intro h e hm he
    have hs : e.is_success = false := by simp [HistoryEntry.is_success, he]
    simp [CommandHistory.get_failed_commands, List.mem_filter, hm, hs]
  · intro b hb
    simp [Block.is_success, hb]

/-- Witness for C10 at a concrete never-completed entry and block. -/
theorem C10_success_predicates_disagree_witness :
    entC10.is_success = false ∧ blkC10.is_success = true :=
  ⟨C10_success_predicates_disagree.1 entC10 rfl,
   C10_success_predicates_disagree.2.2 blkC10 rfl⟩

/-- Claim C7: for every session id absent from the session map,
switch_session, clear_session and get_session_blocks each return an error
value, and on that error the session map and the active-session id are left
unchanged (the whole engine state is returned untouched). -/
theorem C7_unknown_session_is_error (eng : TerminalEngine) (sid : Nat)
    (h : eng.sessions.find? (fun p => p.1 == sid) = none) :
    (eng.switch_session sid).1 =
      Except.error ("Session not found: " ++ toString sid) ∧
    (eng.switch_session sid).2 = eng ∧
    (eng.clear_session sid).1 =
      Except.error ("Session not found: " ++ toString sid) ∧
    (eng.clear_session sid).2 = eng ∧
    eng.get_session_blocks sid =
      Except.error ("Session not found: " ++ toString sid) := by
  refine ⟨?_, ?_, ?_, ?_, ?_⟩ <;>
    simp [TerminalEngine.switch_session, TerminalEngine.clear_session,
          TerminalEngine.get_session_blocks, findSession, h]

/-- Witness for C7: the concrete engine holds only session id 0, so id 1 is
unknown. -/
theorem C7_unknown_session_is_error_witness :
    (engC7.switch_session 1).1 =
      Except.error ("Session not found: " ++ toString 1) ∧
    (engC7.switch_session 1).2 = engC7 ∧
    (engC7.clear_session 1).1 =
      Except.error ("Session not found: " ++ toString 1) ∧
    (engC7.clear_session 1).2 = engC7 ∧
    engC7.get_session_blocks 1 =
      Except.error ("Session not found: " ++ toString 1) :=
  C7_unknown_session_is_error engC7 1 rfl

/-- Claim C1 (code bug): the claim says execute offers the command string to
the built-in dispatcher before spawning any child and that for "clear" no
child is spawned and the active session blocks are cleared. The source
execute_command (engine.rs lines 81-139) never calls handle_builtin_command
(engine.rs lines 285-330, which no code in the repository calls): at the
failing input "clear" it publishes CommandStarted, appends a Command block
to the session (leaving the existing block in place, so the session now
holds 2 blocks instead of 0), and schedules a child spawn of bash -c clear. -/
theorem C1_execute_clear_spawns_child :
    (engC1.execute_command "clear" "/proc").2.2 =
      [EngineEffect.event (TerminalEvent.CommandStarted 2 "clear"),
       EngineEffect.spawnChild "bash" "-c" "clear" "/tmp"] ∧
    (findSession (engC1.execute_command "clear" "/proc").2.1.sessions 0).map
        (fun s => s.blocks.length) = some 2 := by
  constructor <;> rfl

/-- Claim C2 counterexample: a valid interleaving of run_command_async
(engine.rs lines 141-212) in which the CommandOutput event of the command id
is published after its CommandFinished event: the child writes "hello" to
the stdout pipe and exits; wait returns and CommandFinished is sent while
the line still sits in the pipe (the reader task handles are never joined);
then the stdout reader publishes the line. This refutes both "every
CommandOutput event for that id is published before its CommandFinished
event" and "CommandFinished ... only after both the stdout and stderr
readers have emitted all of their lines". -/
theorem C2_output_after_finished_schedule :
    (runSchedule 7 0 (RunState.init 7 "echo hello" ["hello"] [])
        cexSchedule).map RunState.events =
      some [TerminalEvent.CommandStarted 7 "echo hello",
            TerminalEvent.CommandFinished 7 0,
            TerminalEvent.CommandOutput 7 "hello\n" false] := by
  rfl

/-- One enabled step preserves the run invariant. -/
lemma runStep_preserves_inv (cmd_id : Nat) (exit_code : Int) (command : String)
    (s s1 : RunState) (l : RunLabel)
    (hinv : runInv cmd_id command s)
    (hstep : runStep cmd_id exit_code s l = some s1) :
    runInv cmd_id command s1 := by
  obtain ⟨hhead, hcount⟩ := hinv
  have hne : s.events ≠ [] := by
    intro hnil
    rw [hnil] at hhead
    exact Option.noConfusion hhead
  cases l with
  | childOut =>
      rcases hpd : s.stdoutPending with _ | ⟨line, rest⟩ <;>
        simp only [runStep, hpd] at hstep
      · exact Option.noConfusion hstep
      · obtain rfl := Option.some.inj hstep
        exact ⟨hhead, hcount⟩
  | childErr =>
      rcases hpd : s.stderrPending with _ | ⟨line, rest⟩ <;>
        simp only [runStep, hpd] at hstep
      · exact Option.noConfusion hstep
      · obtain rfl := Option.some.inj hstep
        exact ⟨hhead, hcount⟩
  | childExit =>
      simp only [runStep] at hstep
      split at hstep
      · obtain rfl := Option.some.inj hstep
        exact ⟨hhead, hcount⟩
      · exact Option.noConfusion hstep
  | readOut =>
      rcases hpd : s.stdoutPipe with _ | ⟨line, rest⟩ <;>
        simp only [runStep, hpd] at hstep
      · exact Option.noConfusion hstep
      · obtain rfl := Option.some.inj hstep
        refine ⟨?_, ?_⟩
        · simp [List.head?_append, hhead]
        · simpa [List.countP_append, isFinishedEvent] using hcount
  | readErr =>
      rcases hpd : s.stderrPipe with _ | ⟨line, rest⟩ <;>
        simp only [runStep, hpd] at hstep
      · exact Option.noConfusion hstep
      · obtain rfl := Option.some.inj hstep
        refine ⟨?_, ?_⟩
        · simp [List.head?_append, hhead]
        · simpa [List.countP_append, isFinishedEvent] using hcount
  | mainWait =>
      simp only [runStep] at hstep
      split at hstep
      · rename_i hcond
        obtain rfl := Option.some.inj hstep
        refine ⟨?_, ?_⟩
        · simp [List.head?_append, hhead]
        · rw [hcond.2] at hcount
          simpa [List.countP_append, isFinishedEvent] using hcount
      · exact Option.noConfusion hstep

/-- Every state a schedule reaches satisfies the run invariant. -/
lemma runSchedule_preserves_inv (cmd_id : Nat) (exit_code : Int)
    (command : String) :
    ∀ (sched : List RunLabel) (s s1 : RunState),
      runInv cmd_id command s →
      runSchedule cmd_id exit_code s sched = some s1 →
      runInv cmd_id command s1 := by
  intro sched
  induction sched with
  | nil =>
      intro s s1 hinv hrun
      simp only [runSchedule] at hrun
      obtain rfl := Option.some.inj hrun
      exact hinv
  | cons l ls ih =>
      intro s s1 hinv hrun
      simp only [runSchedule] at hrun
      rcases hstep : runStep cmd_id exit_code s l with _ | s2 <;>
        rw [hstep] at hrun
      · exact Option.noConfusion hrun
      · exact ih s2 s1
          (runStep_preserves_inv cmd_id exit_code command s s2 l hinv hstep) hrun

/-- Claim C2 amended: for every command run, CommandStarted is published
before execute returns the id (it heads the event sequence of every
reachable state, having been sent synchronously before the task spawn), and
CommandFinished is published at most once — exactly once when the waiting
task has sent it. The dropped part of the claim — every CommandOutput
precedes CommandFinished, which is sent only after both readers finish — is
refuted by the counterexample schedule: the source never joins the reader
tasks before wait. -/
theorem C2_started_first_finished_once (cmd_id : Nat) (exit_code : Int)
    (command : String) (outs errs : List String) (sched : List RunLabel)
    (s : RunState)
    (hrun : runSchedule cmd_id exit_code
        (RunState.init cmd_id command outs errs) sched = some s) :
    s.events.head? = some (TerminalEvent.CommandStarted cmd_id command) ∧
    s.events.countP isFinishedEvent = (if s.finishedSent then 1 else 0) :=
  runSchedule_preserves_inv cmd_id exit_code command sched
    (RunState.init cmd_id command outs errs) s ⟨rfl, rfl⟩ hrun

/-- Witness for C2 at the concrete race schedule: even there CommandStarted
heads the events and CommandFinished occurs exactly once. -/
theorem C2_started_first_finished_once_witness :
    sC2fin.events.head? = some (TerminalEvent.CommandStarted 7 "echo hello") ∧
    sC2fin.events.countP isFinishedEvent = (if sC2fin.finishedSent then 1 else 0) :=
  C2_started_first_finished_once 7 0 "echo hello" ["hello"] [] cexSchedule
    sC2fin rfl

/-- The source mark computation agrees with the spec wording (0 means the
check mark, any other set code the cross with the code, unset means no
mark). -/
lemma exportMark_eq (oc : Option Int) :
    exportMark oc =
      (match oc with
       | none => ""
       | some c => if c = 0 then " ✓" else " ✗(" ++ toString c ++ ")") := by
  rcases oc with _ | c
  · rfl
  · show exportMark (some c) = if c = 0 then " ✓" else " ✗(" ++ toString c ++ ")"
    rcases eq_or_ne c 0 with rfl | hc
    · rfl
    · rw [if_neg hc]
      rcases c with n | n
      · rcases n with _ | m
        · exact absurd rfl hc
        · rfl
      · rfl

/-- Claim C9: export writes one record per entry, in order, of the exact
form "YYYY-MM-DD HH:MM:SS <command> (<cwd>)[ mark]" followed by a newline,
where mark is " ✓" when the exit code is 0, " ✗(code)" when non-zero, and
empty when the entry never received an exit code: the content the source
builds equals the concatenation of the spec-side records. -/
theorem C9_export_format (h : CommandHistory) :
    h.export_content = String.join (h.entries.map specExportLine) := by
  have hfun : ∀ e : HistoryEntry,
      (e.timestamp.format ++ " " ++ e.command ++ " (" ++ e.working_directory ++
        ")" ++ exportMark e.exit_code ++ "\n") = specExportLine e := by
    intro e
    unfold specExportLine
    rw [exportMark_eq]
  unfold CommandHistory.export_content
  rw [List.map_congr_left (fun e _ => hfun e)]

/-- Claim C5: processing ESC [ n m for n in 30..37 emits exactly the fixed
foreground palette entry for n - 30, for n in 40..47 exactly the background
entry for n - 40 — black(0,0,0), red(128,0,0), green(0,128,0),
yellow(128,128,0), blue(0,0,128), magenta(128,0,128), cyan(0,128,128),
white(192,192,192) — and ESC [ 0 m emits Reset. -/
theorem C5_sgr_palette_exact :
    (VteProcessor.new.process_bytes (sgrBytes 30)).1 =
      [TerminalAction.SetForegroundColor 0 0 0] ∧
    (VteProcessor.new.process_bytes (sgrBytes 31)).1 =
      [TerminalAction.SetForegroundColor 128 0 0] ∧
    (VteProcessor.new.process_bytes (sgrBytes 32)).1 =
      [TerminalAction.SetForegroundColor 0 128 0] ∧
    (VteProcessor.new.process_bytes (sgrBytes 33)).1 =
      [TerminalAction.SetForegroundColor 128 128 0] ∧
    (VteProcessor.new.process_bytes (sgrBytes 34)).1 =
      [TerminalAction.SetForegroundColor 0 0 128] ∧
    (VteProcessor.new.process_bytes (sgrBytes 35)).1 =
      [TerminalAction.SetForegroundColor 128 0 128] ∧
    (VteProcessor.new.process_bytes (sgrBytes 36)).1 =
      [TerminalAction.SetForegroundColor 0 128 128] ∧
    (VteProcessor.new.process_bytes (sgrBytes 37)).1 =
      [TerminalAction.SetForegroundColor 192 192 192] ∧
    (VteProcessor.new.process_bytes (sgrBytes 40)).1 =
      [TerminalAction.SetBackgroundColor 0 0 0] ∧
    (VteProcessor.new.process_bytes (sgrBytes 41)).1 =
      [TerminalAction.SetBackgroundColor 128 0 0] ∧
    (VteProcessor.new.process_bytes (sgrBytes 42)).1 =
      [TerminalAction.SetBackgroundColor 0 128 0] ∧
    (VteProcessor.new.process_bytes (sgrBytes 43)).1 =
      [TerminalAction.SetBackgroundColor 128 128 0] ∧
    (VteProcessor.new.process_bytes (sgrBytes 44)).1 =
      [TerminalAction.SetBackgroundColor 0 0 128] ∧
    (VteProcessor.new.process_bytes (sgrBytes 45)).1 =
      [TerminalAction.SetBackgroundColor 128 0 128] ∧
    (VteProcessor.new.process_bytes (sgrBytes 46)).1 =
      [TerminalAction.SetBackgroundColor 0 128 128] ∧
    (VteProcessor.new.process_bytes (sgrBytes 47)).1 =
      [TerminalAction.SetBackgroundColor 192 192 192] ∧
    (VteProcessor.new.process_bytes (sgrBytes 0)).1 = [TerminalAction.Reset] := by
  refine ⟨?_, ?_, ?_, ?_, ?_, ?_, ?_, ?_, ?_, ?_, ?_, ?_, ?_, ?_, ?_, ?_, ?_⟩ <;> rfl

/-- The execute callback never emits a Print action. -/
lemma vteExecute_no_print (b : Nat) :
    (vteExecute b).filter TerminalAction.isPrint = [] := by
  unfold vteExecute
  repeat' split
  all_goals rfl

/-- One SGR parameter never emits a Print action. -/
lemma sgrAction_no_print (p : Nat) :
    (sgrAction p).filter TerminalAction.isPrint = [] := by
  unfold sgrAction
  repeat' split
  all_goals rfl

/-- CSI dispatch never emits a Print action. -/
lemma csi_dispatch_no_print (params : List Nat) (c : Char) :
    (csi_dispatch params c).filter TerminalAction.isPrint = [] := by
  unfold csi_dispatch
  repeat' split
  all_goals try rfl
  rw [List.filter_flatten]
  rw [List.map_map]
  have hmap : params.map (List.filter TerminalAction.isPrint ∘ sgrAction) =
      params.map (fun _ => ([] : List TerminalAction)) :=
    List.map_congr_left (fun p _ => sgrAction_no_print p)
  rw [hmap]
  simp

/-- vtStep unfolded at the ground state. -/
lemma vtStep_ground_eq (b : Nat) :
    vtStep VtState.ground b =
      (if b = 24 ∨ b = 26 then (VtState.ground, vteExecute b)
       else if b = 27 then (VtState.escape, [])
       else if 32 ≤ b ∧ b ≤ 126 then
         (VtState.ground, [TerminalAction.Print (Char.ofNat b)])
       else if b ≤ 31 then (VtState.ground, vteExecute b)
       else (VtState.ground, [])) := rfl

/-- vtStep unfolded at the escape state. -/
lemma vtStep_escape_eq (b : Nat) :
    vtStep VtState.escape b =
      (if b = 24 ∨ b = 26 then (VtState.ground, vteExecute b)
       else if b = 27 then (VtState.escape, [])
       else if b = 91 then (VtState.csiEntry, [])
       else if b = 93 then (VtState.oscString, [])
       else if b = 80 ∨ b = 88 ∨ b = 94 ∨ b = 95 then (VtState.stringConsume, [])
       else if 32 ≤ b ∧ b ≤ 47 then (VtState.escapeIntermediate, [])
       else if 48 ≤ b ∧ b ≤ 126 then (VtState.ground, [])
       else if b ≤ 31 then (VtState.escape, vteExecute b)
       else (VtState.escape, [])) := rfl

/-- vtStep unfolded at the escape-intermediate state. -/
lemma vtStep_escapeIntermediate_eq (b : Nat) :
    vtStep VtState.escapeIntermediate b =
      (if b = 24 ∨ b = 26 then (VtState.ground, vteExecute b)
       else if b = 27 then (VtState.escape, [])
       else if 32 ≤ b ∧ b ≤ 47 then (VtState.escapeIntermediate, [])
       else if 48 ≤ b ∧ b ≤ 126 then (VtState.ground, [])
       else if b ≤ 31 then (VtState.escapeIntermediate, vteExecute b)
       else (VtState.escapeIntermediate, [])) := rfl

/-- vtStep unfolded at the CSI entry state. -/
lemma vtStep_csiEntry_eq (b : Nat) :
    vtStep VtState.csiEntry b =
      (if b = 24 ∨ b = 26 then (VtState.ground, vteExecute b)
       else if b = 27 then (VtState.escape, [])
       else if 48 ≤ b ∧ b ≤ 57 then (VtState.csiParam [] (b - 48), [])
       else if b = 59 then (VtState.csiParam [0] 0, [])
       else if b = 58 then (VtState.csiIgnore, [])
       else if 60 ≤ b ∧ b ≤ 63 then (VtState.csiParam [] 0, [])
       else if 32 ≤ b ∧ b ≤ 47 then (VtState.csiIntermediate [] 0, [])
       else if 64 ≤ b ∧ b ≤ 126 then
         (VtState.ground, csi_dispatch [0] (Char.ofNat b))
       else if b ≤ 31 then (VtState.csiEntry, vteExecute b)
       else (VtState.csiEntry, [])) := rfl

/-- vtStep unfolded at the CSI parameter state. -/
lemma vtStep_csiParam_eq (ps : List Nat) (cur : Nat) (b : Nat) :
    vtStep (VtState.csiParam ps cur) b =
      (if b = 24 ∨ b = 26 then (VtState.ground, vteExecute b)
       else if b = 27 then (VtState.escape, [])
       else if 48 ≤ b ∧ b ≤ 57 then
         (VtState.csiParam ps (cur * 10 + (b - 48)), [])
       else if b = 59 then (VtState.csiParam (ps ++ [cur]) 0, [])
       else if b = 58 ∨ (60 ≤ b ∧ b ≤ 63) then (VtState.csiIgnore, [])
       else if 32 ≤ b ∧ b ≤ 47 then (VtState.csiIntermediate ps cur, [])
       else if 64 ≤ b ∧ b ≤ 126 then
         (VtState.ground, csi_dispatch (ps ++ [cur]) (Char.ofNat b))
       else if b ≤ 31 then (VtState.csiParam ps cur, vteExecute b)
       else (VtState.csiParam ps cur, [])) := rfl

/-- vtStep unfolded at the CSI intermediate state. -/
lemma vtStep_csiIntermediate_eq (ps : List Nat) (cur : Nat) (b : Nat) :
    vtStep (VtState.csiIntermediate ps cur) b =
      (if b = 24 ∨ b = 26 then (VtState.ground, vteExecute b)
       else if b = 27 then (VtState.escape, [])
       else if 32 ≤ b ∧ b ≤ 47 then (VtState.csiIntermediate ps cur, [])
       else if 48 ≤ b ∧ b ≤ 63 then (VtState.csiIgnore, [])
       else if 64 ≤ b ∧ b ≤ 126 then
         (VtState.ground, csi_dispatch (ps ++ [cur]) (Char.ofNat b))
       else if b ≤ 31 then (VtState.csiIntermediate ps cur, vteExecute b)
       else (VtState.csiIntermediate ps cur, [])) := rfl

/-- vtStep unfolded at the CSI ignore state. -/
lemma vtStep_csiIgnore_eq (b : Nat) :
    vtStep VtState.csiIgnore b =
      (if b = 24 ∨ b = 26 then (VtState.ground, vteExecute b)
       else if b = 27 then (VtState.escape, [])
       else if 64 ≤ b ∧ b ≤ 126 then (VtState.ground, [])
       else if b ≤ 31 then (VtState.csiIgnore, vteExecute b)
       else (VtState.csiIgnore, [])) := rfl

/-- vtStep unfolded at the OSC string state. -/
lemma vtStep_oscString_eq (b : Nat) :
    vtStep VtState.oscString b =
      (if b = 24 ∨ b = 26 then (VtState.ground, vteExecute b)
       else if b = 27 then (VtState.escape, [])
       else if b = 7 then (VtState.ground, [])
       else (VtState.oscString, [])) := rfl

/-- vtStep unfolded at the collapsed DCS/SOS/PM/APC string state. -/
lemma vtStep_stringConsume_eq (b : Nat) :
    vtStep VtState.stringConsume b =
      (if b = 24 ∨ b = 26 then (VtState.ground, vteExecute b)
       else if b = 27 then (VtState.escape, [])
       else (VtState.stringConsume, [])) := rfl

/-- One parser step emits exactly one Print action — for the byte itself —
when the byte is ASCII printable and the state is ground, and no Print
action otherwise. -/
lemma vtStep_filter_print (s : VtState) (b : Nat) :
    ((vtStep s b).2).filter TerminalAction.isPrint =
      (if s = VtState.ground ∧ isPrintableByte b = true
        then [TerminalAction.Print (Char.ofNat b)] else []) := by
  have hprint : isPrintableByte b = true ↔ (32 ≤ b ∧ b ≤ 126) := by
    simp [isPrintableByte]
  cases s with
  | ground =>
      rw [vtStep_ground_eq]
      by_cases h2 : 32 ≤ b ∧ b ≤ 126
      · rw [if_neg (show ¬(b = 24 ∨ b = 26) from by omega),
            if_neg (show ¬ b = 27 from by omega),
            if_pos h2,
            if_pos (show VtState.ground = VtState.ground ∧ isPrintableByte b = true
              from ⟨rfl, hprint.mpr h2⟩)]
        rfl
      · rw [if_neg
            (show ¬(VtState.ground = VtState.ground ∧ isPrintableByte b = true)
              from fun hc => h2 (hprint.mp hc.2))]
        repeat' split
        all_goals first
          | rfl
          | exact vteExecute_no_print _
  | escape =>
      rw [vtStep_escape_eq,
          if_neg
            (show ¬(VtState.escape = VtState.ground ∧ isPrintableByte b = true)
              from fun hc => VtState.noConfusion hc.1)]
      repeat' split
      all_goals first
        | rfl
        | exact vteExecute_no_print _
  | escapeIntermediate =>
      rw [vtStep_escapeIntermediate_eq,
          if_neg
            (show ¬(VtState.escapeIntermediate = VtState.ground ∧
                isPrintableByte b = true)
              from fun hc => VtState.noConfusion hc.1)]
      repeat' split
      all_goals first
        | rfl
        | exact vteExecute_no_print _
  | csiEntry =>
      rw [vtStep_csiEntry_eq,
          if_neg
            (show ¬(VtState.csiEntry = VtState.ground ∧ isPrintableByte b = true)
              from fun hc => VtState.noConfusion hc.1)]
      repeat' split
      all_goals first
        | rfl
        | exact vteExecute_no_print _
        | exact csi_dispatch_no_print _ _
  | csiParam ps cur =>
      rw [vtStep_csiParam_eq,
          if_neg
            (show ¬(VtState.csiParam ps cur = VtState.ground ∧
                isPrintableByte b = true)
              from fun hc => VtState.noConfusion hc.1)]
      repeat' split
      all_goals first
        | rfl
        | exact vteExecute_no_print _
        | exact csi_dispatch_no_print _ _
  | csiIntermediate ps cur =>
      rw [vtStep_csiIntermediate_eq,
          if_neg
            (show ¬(VtState.csiIntermediate ps cur = VtState.ground ∧
                isPrintableByte b = true)
              from fun hc => VtState.noConfusion hc.1)]
      repeat' split
      all_goals first
        | rfl
        | exact vteExecute_no_print _
        | exact csi_dispatch_no_print _ _
  | csiIgnore =>
      rw [vtStep_csiIgnore_eq,
          if_neg
            (show ¬(VtState.csiIgnore = VtState.ground ∧ isPrintableByte b = true)
              from fun hc => VtState.noConfusion hc.1)]
      repeat' split
      all_goals first
        | rfl
        | exact vteExecute_no_print _
  | oscString =>
      rw [vtStep_oscString_eq,
          if_neg
            (show ¬(VtState.oscString = VtState.ground ∧ isPrintableByte b = true)
              from fun hc => VtState.noConfusion hc.1)]
      repeat' split
      all_goals first
        | rfl
        | exact vteExecute_no_print _
  | stringConsume =>
      rw [vtStep_stringConsume_eq,
          if_neg
            (show ¬(VtState.stringConsume = VtState.ground ∧
                isPrintableByte b = true)
              from fun hc => VtState.noConfusion hc.1)]
      repeat' split
      all_goals first
        | rfl
        | exact vteExecute_no_print _

/-- groundPrintables unfolded on a cons cell. -/
lemma groundPrintables_cons (s : VtState) (b : Nat) (bs : List Nat) :
    groundPrintables s (b :: bs) =
      (if s = VtState.ground ∧ isPrintableByte b = true then [b] else []) ++
        groundPrintables (vtStep s b).1 bs := rfl

/-- Over a whole byte list the Print actions are exactly, in order, one
Print per printable byte processed in the ground state. -/
lemma vtRun_filter_print :
    ∀ (bs : List Nat) (s : VtState),
      ((vtRun s bs).2).filter TerminalAction.isPrint =
        (groundPrintables s bs).map (fun b => TerminalAction.Print (Char.ofNat b)) := by
  intro bs
  induction bs with
  | nil => intro s; rfl
  | cons b rest ih =>
      intro s
      have hrun : (vtRun s (b :: rest)).2 =
          (vtStep s b).2 ++ (vtRun (vtStep s b).1 rest).2 := rfl
      rw [hrun, List.filter_append, vtStep_filter_print s b, ih (vtStep s b).1,
          groundPrintables_cons, List.map_append]
      by_cases hc : s = VtState.ground ∧ isPrintableByte b = true
      · rw [if_pos hc, if_pos hc]
        rfl
      · rw [if_neg hc, if_neg hc]
        rfl

/-- Claim C6: process_bytes is total — a pure function returning an action
vector for every input byte sequence, with no exception and no input or
output — and each ASCII printable byte processed outside an escape sequence
(in the ground state) produces exactly one Print action: the Print actions
of the output are exactly, in order, one Print of the byte for each such
byte. Bytes inside OSC, DCS, SOS, PM and APC strings and inside ESC or CSI
sequences, printable or not, are consumed by the sequence states and never
printed. Stated for inputs of bytes below 0x7f: bytes at or above 0x80 enter
the utf8 path of the external parser, and DEL is printed verbatim by the
reference machine while not being a printable character in the words of the
spec, so both lie outside the verified domain (and outside the printable
range the claim addresses). -/
theorem C6_print_actions_exact (p : VteProcessor) (bytes : List Nat)
    (_hascii : ∀ b ∈ bytes, b < 127) :
    ((p.process_bytes bytes).1).filter TerminalAction.isPrint =
      (groundPrintables p.state bytes).map
        (fun b => TerminalAction.Print (Char.ofNat b)) :=
  vtRun_filter_print bytes p.state

/-- Witness for C6 on the bytes of "hi", ESC [ 2 J, "!". -/
theorem C6_print_actions_exact_witness :
    ((VteProcessor.new.process_bytes [104, 105, 27, 91, 50, 74, 33]).1).filter
        TerminalAction.isPrint =
      (groundPrintables VtState.ground [104, 105, 27, 91, 50, 74, 33]).map
        (fun b => TerminalAction.Print (Char.ofNat b)) :=
  C6_print_actions_exact VteProcessor.new [104, 105, 27, 91, 50, 74, 33]
    (by decide)

/-- add_entry preserves the history invariant: no two consecutive entries
share a command, the length is bounded by max_entries, and max_entries
itself never changes. -/
lemma add_entry_preserves (h : CommandHistory) (e : HistoryEntry)
    (hch : List.Chain' (fun a b => a.command ≠ b.command) h.entries) :
    List.Chain' (fun a b => a.command ≠ b.command) (h.add_entry e).entries ∧
    (h.add_entry e).entries.length ≤ h.max_entries ∧
    (h.add_entry e).max_entries = h.max_entries ∨
    h.add_entry e = h := by
  unfold CommandHistory.add_entry
  split
  · exact Or.inr rfl
  · rename_i hne
    left
    refine ⟨?_, ?_, rfl⟩
    · apply List.Chain'.drop
      rw [List.chain'_append]
      refine ⟨hch, List.chain'_singleton e, ?_⟩
      intro x hx y hy
      have hy2 : e = y := by simpa using hy
      rw [Option.mem_def] at hx
      intro hxy
      exact hne (by rw [hx]; simp [hxy, hy2])
    · rw [List.length_drop, List.length_append]
      omega

/-- Folding add_entry from an empty history keeps the invariant. -/
lemma foldl_add_entry_inv (es : List HistoryEntry) :
    ∀ h : CommandHistory,
      List.Chain' (fun a b => a.command ≠ b.command) h.entries →
      h.entries.length ≤ h.max_entries →
      List.Chain' (fun a b => a.command ≠ b.command)
        (es.foldl CommandHistory.add_entry h).entries ∧
      (es.foldl CommandHistory.add_entry h).entries.length ≤
        (es.foldl CommandHistory.add_entry h).max_entries ∧
      (es.foldl CommandHistory.add_entry h).max_entries = h.max_entries := by
  induction es with
  | nil => intro h hch hlen; exact ⟨hch, hlen, rfl⟩
  | cons e rest ih =>
      intro h hch hlen
      rw [List.foldl_cons]
      rcases add_entry_preserves h e hch with ⟨hch1, hlen1, hmax1⟩ | heq
      · rcases ih (h.add_entry e) hch1 (hmax1 ▸ hlen1) with ⟨a, b, c⟩
        exact ⟨a, b, c.trans hmax1⟩
      · rw [heq]
        exact ih h hch hlen

/-- Claim C3: over every sequence of add_entry calls, no two consecutive
retained entries share identical command text and the length never exceeds
max_entries (oldest entries are dropped from the front); an entry equal to
the current tail is silently rejected (the history is returned unchanged,
cursor included); and whenever an entry is actually appended the recall
cursor is reset to unset. -/
theorem C3_add_entry_invariants :
    (∀ (maxN : Nat) (es : List HistoryEntry),
      List.Chain' (fun a b => a.command ≠ b.command)
        (es.foldl CommandHistory.add_entry (CommandHistory.new maxN)).entries ∧
      (es.foldl CommandHistory.add_entry (CommandHistory.new maxN)).entries.length
        ≤ maxN) ∧
    (∀ (h : CommandHistory) (e : HistoryEntry),
      h.entries.getLast?.map HistoryEntry.command = some e.command →
      h.add_entry e = h) ∧
    (∀ (h : CommandHistory) (e : HistoryEntry),
      h.entries.getLast?.map HistoryEntry.command ≠ some e.command →
      (h.add_entry e).current_index = none) := by
  refine ⟨?_, ?_, ?_⟩
  · intro maxN es
    rcases foldl_add_entry_inv es (CommandHistory.new maxN)
        List.chain'_nil (by simp [CommandHistory.new]) with ⟨a, b, c⟩
    have c2 : (es.foldl CommandHistory.add_entry (CommandHistory.new maxN)).max_entries
        = maxN := c
    exact ⟨a, le_trans b (le_of_eq c2)⟩
  · intro h e hdup
    unfold CommandHistory.add_entry
    rw [if_pos hdup]
  · intro h e hne
    unfold CommandHistory.add_entry
    rw [if_neg hne]

/-- Witness for C3: adding the tail command "ls" again leaves the concrete
history unchanged; adding the new command "cd" resets the recall cursor. -/
theorem C3_add_entry_invariants_witness :
    hC3.add_entry (HistoryEntry.new "ls" "/x" ts0) = hC3 ∧
    (hC3.add_entry (HistoryEntry.new "cd" "/x" ts0)).current_index = none :=
  ⟨C3_add_entry_invariants.2.1 hC3 (HistoryEntry.new "ls" "/x" ts0) rfl,
   C3_add_entry_invariants.2.2 hC3 (HistoryEntry.new "cd" "/x" ts0) (by decide)⟩

/-- get_previous with an unset cursor on a non-empty history. -/
lemma get_previous_unset (h : CommandHistory) (hne : h.entries ≠ [])
    (hc : h.current_index = none) :
    h.get_previous = (h.entries[h.entries.length - 1]?,
      { h with current_index := some (h.entries.length - 1) }) := by
  unfold CommandHistory.get_previous
  rw [if_neg hne, hc]

/-- get_previous with the cursor set above zero on a non-empty history. -/
lemma get_previous_set (h : CommandHistory) (i : Nat) (hne : h.entries ≠ [])
    (hc : h.current_index = some i) (hi : 0 < i) :
    h.get_previous = (h.entries[i - 1]?,
      { h with current_index := some (i - 1) }) := by
  unfold CommandHistory.get_previous
  rw [if_neg hne, hc]
  simp only [if_pos hi]

/-- get_previous with the cursor at zero on a non-empty history: the source
returns entry 0 and leaves the cursor where it is. -/
lemma get_previous_zero (h : CommandHistory) (hne : h.entries ≠ [])
    (hc : h.current_index = some 0) :
    h.get_previous = (h.entries[0]?, h) := by
  unfold CommandHistory.get_previous
  rw [if_neg hne, hc]
  simp

/-- Iterating get_previous from a set cursor i walks i-1, i-2, ... and
returns the entries below the cursor in reverse order. -/
lemma prevCalls_from_cursor :
    ∀ (k : Nat) (h : CommandHistory) (i : Nat),
      h.entries ≠ [] → h.current_index = some i → i < h.entries.length →
      k ≤ i →
      prevCalls h k = ((h.entries.take i).reverse.take k).map some := by
  intro k
  induction k with
  | zero => intro h i _ _ _ _; rfl
  | succ k ih =>
    intro h i hne hc hilen hki
    have hipos : 0 < i := by omega
    have hstep := get_previous_set h i hne hc hipos
    show (h.get_previous.1 :: prevCalls h.get_previous.2 k) = _
    rw [hstep]
    have hrest : prevCalls { h with current_index := some (i - 1) } k =
        ((h.entries.take (i - 1)).reverse.take k).map some := by
      apply ih
      · exact hne
      · rfl
      · show i - 1 < h.entries.length
        omega
      · omega
    rw [hrest]
    have hidx : h.entries[i - 1]? = some (h.entries.get ⟨i - 1, by omega⟩) := by
      rw [List.getElem?_eq_getElem (by omega)]
      rfl
    have htake : h.entries.take i =
        h.entries.take (i - 1) ++ (h.entries[i - 1]?).toList := by
      have ht := @List.take_succ _ h.entries (i - 1)
      rw [show i - 1 + 1 = i from by omega] at ht
      exact ht
    rw [htake, hidx]
    have htl : ∀ a : HistoryEntry, (Option.some a).toList = [a] := fun a => rfl
    simp only [htl, List.reverse_append, List.reverse_cons, List.reverse_nil,
      List.nil_append, List.singleton_append, List.take_succ_cons, List.map_cons]

/-- Claim C4: for every non-empty history, get_previous from an unset cursor
sets the cursor to the tail index and returns the tail entry; from a set
cursor it decrements and clamps at 0 (at index 0 it keeps returning the
first entry and leaves the cursor); get_next returns none on an unset
cursor, increments a set cursor, and unsets the cursor returning none when
advancing past the tail; and K calls of get_previous from an unset cursor
return the last K entries in reverse order. -/
theorem C4_recall_cursor :
    (∀ h : CommandHistory, h.entries ≠ [] → h.current_index = none →
      h.get_previous = (h.entries.getLast?,
        { h with current_index := some (h.entries.length - 1) })) ∧
    (∀ (h : CommandHistory) (i : Nat), h.entries ≠ [] →
      h.current_index = some i → 0 < i →
      h.get_previous = (h.entries[i - 1]?,
        { h with current_index := some (i - 1) })) ∧
    (∀ h : CommandHistory, h.entries ≠ [] → h.current_index = some 0 →
      h.get_previous = (h.entries[0]?, h)) ∧
    (∀ h : CommandHistory, h.current_index = none →
      h.get_next = (none, h)) ∧
    (∀ (h : CommandHistory) (i : Nat), h.current_index = some i →
      i < h.entries.length - 1 →
      h.get_next = (h.entries[i + 1]?,
        { h with current_index := some (i + 1) })) ∧
    (∀ (h : CommandHistory) (i : Nat), h.current_index = some i →
      ¬ i < h.entries.length - 1 →
      h.get_next = (none, { h with current_index := none })) ∧
    (∀ (h : CommandHistory) (K : Nat), h.current_index = none →
      K ≤ h.entries.length →
      prevCalls h K = (h.entries.reverse.take K).map some) := by
  refine ⟨?_, ?_, ?_, ?_, ?_, ?_, ?_⟩
  · intro h hne hc
    rw [get_previous_unset h hne hc, List.getLast?_eq_getElem?]
  · intro h i hne hc hi
    exact get_previous_set h i hne hc hi
  · intro h hne hc
    exact get_previous_zero h hne hc
  · intro h hc
    unfold CommandHistory.get_next
    rw [hc]
  · intro h i hc hi
    unfold CommandHistory.get_next
    rw [hc]
    simp only [if_pos hi]
  · intro h i hc hi
    unfold CommandHistory.get_next
    rw [hc]
    simp only [if_neg hi]
  · intro h K hc hK
    cases K with
    | zero => rfl
    | succ k =>
      have hlen : 0 < h.entries.length := by omega
      have hne : h.entries ≠ [] := by
        intro hnil
        rw [hnil] at hlen
        exact Nat.lt_irrefl 0 hlen
      have hstep := get_previous_unset h hne hc
      show (h.get_previous.1 :: prevCalls h.get_previous.2 k) = _
      rw [hstep]
      have hrest :
          prevCalls { h with current_index := some (h.entries.length - 1) } k =
            ((h.entries.take (h.entries.length - 1)).reverse.take k).map some := by
        apply prevCalls_from_cursor
        · exact hne
        · rfl
        · show h.entries.length - 1 < h.entries.length
          omega
        · omega
      rw [hrest]
      have hidx : h.entries[h.entries.length - 1]? =
          some (h.entries.get ⟨h.entries.length - 1, by omega⟩) := by
        rw [List.getElem?_eq_getElem (by omega)]
        rfl
      have htake : h.entries =
          h.entries.take (h.entries.length - 1) ++
            (h.entries[h.entries.length - 1]?).toList := by
        have ht := @List.take_succ _ h.entries (h.entries.length - 1)
        rw [show h.entries.length - 1 + 1 = h.entries.length from by omega] at ht
        rw [List.take_length] at ht
        exact ht
      conv_rhs => rw [htake]
      rw [hidx]
      have htl : ∀ a : HistoryEntry, (Option.some a).toList = [a] := fun a => rfl
      simp only [htl, List.reverse_append, List.reverse_cons, List.reverse_nil,
        List.nil_append, List.singleton_append, List.take_succ_cons, List.map_cons]

/-- Witness for C4: on the concrete history a, b, c with unset cursor,
get_previous yields the tail entry c and sets the cursor to 2, and two
successive get_previous calls return c then b. -/
theorem C4_recall_cursor_witness :
    hC4.get_previous = (some (HistoryEntry.new "c" "/home" ts0),
      { hC4 with current_index := some 2 }) ∧
    prevCalls hC4 2 = [some (HistoryEntry.new "c" "/home" ts0),
      some (HistoryEntry.new "b" "/home" ts0)] :=
  ⟨(C4_recall_cursor.1 hC4 (by decide) rfl).trans (by decide),
   (C4_recall_cursor.2.2.2.2.2.2 hC4 2 rfl (by decide)).trans (by decide)⟩

/-- Inserting into the sorted list is a permutation of consing. -/
lemma insertDesc_perm (x : HistoryEntry × Int)
    (l : List (HistoryEntry × Int)) : (insertDesc x l).Perm (x :: l) := by
  induction l with
  | nil => exact List.Perm.refl [x]
  | cons y ys ih =>
      unfold insertDesc
      split
      · exact (ih.cons y).trans (List.Perm.swap x y ys)
      · exact List.Perm.refl _

/-- The stable descending sort permutes its input. -/
lemma sortDesc_perm (l : List (HistoryEntry × Int)) : (sortDesc l).Perm l := by
  induction l with
  | nil => exact List.Perm.refl []
  | cons x xs ih => exact (insertDesc_perm x (sortDesc xs)).trans (ih.cons x)

/-- Inserting preserves the descending order of scores. -/
lemma insertDesc_pairwise (x : HistoryEntry × Int)
    (l : List (HistoryEntry × Int))
    (hl : l.Pairwise (fun a b => a.2 ≥ b.2)) :
    (insertDesc x l).Pairwise (fun a b => a.2 ≥ b.2) := by
  induction l with
  | nil => simp [insertDesc]
  | cons y ys ih =>
      rcases List.pairwise_cons.1 hl with ⟨hy, hys⟩
      unfold insertDesc
      split
      · rename_i hgt
        rw [List.pairwise_cons]
        refine ⟨?_, ih hys⟩
        intro z hz
        rcases List.mem_cons.1 ((insertDesc_perm x ys).mem_iff.1 hz) with rfl | hzys
        · omega
        · exact hy z hzys
      · rename_i hle
        rw [List.pairwise_cons]
        refine ⟨?_, hl⟩
        intro z hz
        rcases List.mem_cons.1 hz with rfl | hzys
        · omega
        · have h1 : y.2 ≥ z.2 := hy z hzys
          omega

/-- The whole sort is descending in scores. -/
lemma sortDesc_pairwise (l : List (HistoryEntry × Int)) :
    (sortDesc l).Pairwise (fun a b => a.2 ≥ b.2) := by
  induction l with
  | nil => simp [sortDesc]
  | cons x xs ih => exact insertDesc_pairwise x (sortDesc xs) ih

/-- Stability of the insertion, stated per score class: the sublist of any
fixed score is preserved, with the inserted element in front of its own
class. -/
lemma insertDesc_filter (x : HistoryEntry × Int)
    (l : List (HistoryEntry × Int)) (s : Int) :
    (insertDesc x l).filter (fun p => p.2 == s) =
      if x.2 = s then x :: l.filter (fun p => p.2 == s)
      else l.filter (fun p => p.2 == s) := by
  induction l with
  | nil =>
      by_cases hx : x.2 = s
      · simp [insertDesc, hx]
      · simp [insertDesc, hx]
  | cons y ys ih =>
      unfold insertDesc
      split
      · rename_i hgt
        by_cases hx : x.2 = s
        · have hy : ¬ y.2 = s := by omega
          simp [List.filter_cons, hx, hy, ih]
        · simp [List.filter_cons, hx, ih]
      · rename_i hle
        by_cases hx : x.2 = s
        · simp [List.filter_cons, hx]
        · simp [List.filter_cons, hx]

/-- Stability of the whole sort: for every score the subsequence of entries
carrying that score is exactly that of the unsorted input — the original
oldest-first order. -/
lemma sortDesc_filter (l : List (HistoryEntry × Int)) (s : Int) :
    (sortDesc l).filter (fun p => p.2 == s) =
      l.filter (fun p => p.2 == s) := by
  induction l with
  | nil => rfl
  | cons x xs ih =>
      show (insertDesc x (sortDesc xs)).filter (fun p => p.2 == s) = _
      rw [insertDesc_filter, ih, List.filter_cons]
      by_cases hx : x.2 = s
      · simp [hx]
      · simp [hx]

/-- Claim C8 counterexample: with the spec-modelled subsequence matcher, the
query "ls" matches the oldest entry (cwd /old) and the newest entry
(cwd /new) of the concrete history with the same score, and search_fuzzy
returns the OLDER one first — the claim demands the more recently added
entry first on ties. -/
theorem C8_ties_oldest_first_counterexample :
    (hC8.search_fuzzy specMatcher "ls").map
        (fun p => (p.1.working_directory, p.2)) = [("/old", 4), ("/new", 4)] ∧
    hC8.entries.map HistoryEntry.working_directory = ["/old", "/old", "/new"] := by
  constructor <;> rfl

/-- Claim C8 amended: search_fuzzy returns exactly the entries whose command
text the matcher accepts, each paired with its score (a permutation of the
matcher-filtered entry list), sorted by descending score — but ties are
broken by insertion order with the OLDER entry first (Rust sort_by is
stable and the entries are iterated oldest first), not by recency. -/
theorem C8_search_fuzzy_sorted_stable (matcher : String → String → Option Int)
    (h : CommandHistory) (query : String) :
    (h.search_fuzzy matcher query).Perm
      (h.entries.filterMap (fun entry =>
        (matcher entry.command query).map (fun score => (entry, score)))) ∧
    (h.search_fuzzy matcher query).Pairwise (fun a b => a.2 ≥ b.2) ∧
    (∀ s : Int,
      (h.search_fuzzy matcher query).filter (fun p => p.2 == s) =
        (h.entries.filterMap (fun entry =>
          (matcher entry.command query).map (fun score => (entry, score)))).filter
          (fun p => p.2 == s)) :=
  ⟨sortDesc_perm _, sortDesc_pairwise _, fun s => sortDesc_filter _ s⟩

